import Mathlib

/-!
Verification development for the JSON-to-CSV converter (src/main.rs).

The conversion core is the worker closure spawned inside
`JsonToCsvApp::convert_to_csv`: it parses the loaded JSON text with
`serde_json::from_str`, builds a `csv::Writer` from the user settings,
walks the parsed value, and reports status through the shared
`ConversionProgress` record.  The definitions below embed that worker,
the data it consumes (`serde_json::Value`, `Settings`) and the pieces of
application state it can touch.
-/

/--
Modelled from the spec: the parsed JSON value tree (`serde_json::Value` in
the source).  The `Cargo.toml` that fixes the `serde_json` feature set is
not under `src/`; the spec states that an Object is a "mapping from string
key to JsonDocument, insertion order preserved", so `obj` carries its
fields as an insertion-ordered association list.  Numbers are modelled as
integers, which covers every number appearing in the spec and its
examples.
-/
inductive Json where
  | null : Json
  | bool (b : Bool) : Json
  | num (n : Int) : Json
  | str (s : String) : Json
  | arr (elems : List Json) : Json
  | obj (fields : List (String × Json)) : Json

/-- Lowercase hexadecimal digit, as used by the serde_json escape table. -/
def hexDigit (n : Nat) : Char :=
  if n < 10 then Char.ofNat (48 + n) else Char.ofNat (87 + n)

/-- Four lowercase hexadecimal digits, for the \u escape form. -/
def hex4 (n : Nat) : String :=
  String.mk [hexDigit (n / 4096 % 16), hexDigit (n / 256 % 16),
             hexDigit (n / 16 % 16), hexDigit (n % 16)]

/--
serde_json escaping of one character inside a JSON string literal: the
quote and backslash get a backslash, the five short control escapes are
used where they exist, any other control character becomes \u00xx, and
everything else is passed through.
-/
def escapeChar (c : Char) : String :=
  if c = '"' then "\\\""
  else if c = '\\' then "\\\\"
  else if c = Char.ofNat 8 then "\\b"
  else if c = '\t' then "\\t"
  else if c = '\n' then "\\n"
  else if c = Char.ofNat 12 then "\\f"
  else if c = '\r' then "\\r"
  else if c.toNat < 32 then "\\u" ++ hex4 c.toNat
  else String.singleton c

/-- serde_json escaping of the body of a JSON string literal. -/
def escapeJsonString (s : String) : String :=
  String.join (s.toList.map escapeChar)

mutual

/--
The compact JSON text of a value, as produced by `Value::to_string()`
(the `Display` impl of `serde_json::Value`): `null`, `true`, `false`,
decimal integers, quoted and escaped string literals, and bracketed
comma-separated arrays and objects.
-/
def Json.toString : Json → String
  | .null => "null"
  | .bool true => "true"
  | .bool false => "false"
  | .num n => ToString.toString n
  | .str s => "\"" ++ escapeJsonString s ++ "\""
  | .arr elems => "[" ++ Json.toStringElems elems ++ "]"
  | .obj fields => "\x7b" ++ Json.toStringFields fields ++ "\x7d"

/-- Comma-separated rendering of the elements of a JSON array. -/
def Json.toStringElems : List Json → String
  | [] => ""
  | [x] => x.toString
  | x :: y :: xs => x.toString ++ "," ++ Json.toStringElems (y :: xs)

/-- Comma-separated rendering of the fields of a JSON object. -/
def Json.toStringFields : List (String × Json) → String
  | [] => ""
  | [(k, v)] => "\"" ++ escapeJsonString k ++ "\":" ++ v.toString
  | (k, v) :: y :: xs =>
      "\"" ++ escapeJsonString k ++ "\":" ++ v.toString ++ "," ++
        Json.toStringFields (y :: xs)

end

/-- Whether a value is an Object (`matches!(v, Value::Object(_))`). -/
def Json.isObj : Json → Bool
  | .obj _ => true
  | _ => false

/--
Whether a value falls into the catch-all arm of the `match json_value`
in the worker: neither an Array nor an Object.
-/
def Json.isScalar : Json → Bool
  | .arr _ => false
  | .obj _ => false
  | _ => true

/-- Key lookup in an object, as `serde_json::Map::get` (first match). -/
def mapGet (fields : List (String × Json)) (key : String) : Option Json :=
  match fields with
  | [] => none
  | (k, v) :: rest => if k = key then some v else mapGet rest key

/-- The `Settings` struct of the application (src/main.rs, lines 31-43). -/
structure Settings where
  dark_mode : Bool
  delimiter : String
  include_headers : Bool
  quote_fields : Bool
  max_preview_rows : Nat

/--
The value produced by the derived `Default` impl on `Settings`: `false`
booleans, the empty string for the delimiter, zero for the row cap.
-/
def Settings.default : Settings :=
  ⟨false, "", false, false, 0⟩

/-- Replace only the preview row cap of a settings record. -/
def withMaxPreview (s : Settings) (m : Nat) : Settings :=
  ⟨s.dark_mode, s.delimiter, s.include_headers, s.quote_fields, m⟩

/--
Models `settings.delimiter.as_bytes()[0]` (src/main.rs line 187): the
first unit of the delimiter string.  The indexing has no bounds guard in
the source; `none` marks the case in which it would be out of bounds,
namely the empty delimiter string.  The selectable delimiters are all
single ASCII characters, for which the first byte is the first character.
-/
def delimiterByte (delimiter : String) : Option Char :=
  delimiter.toList.head?

/-- The two quote styles the application selects between (`csv::QuoteStyle`). -/
inductive QuoteStyle where
  | necessary : QuoteStyle
  | never : QuoteStyle

/-- The quote style chosen from the settings (src/main.rs lines 188-192). -/
def styleOf (s : Settings) : QuoteStyle :=
  if s.quote_fields then QuoteStyle.necessary else QuoteStyle.never

/--
Whether the csv crate must quote a field under `QuoteStyle::Necessary`:
it contains the delimiter, a quote, or a line-break character (the
writer treats both CR and LF as record-terminator bytes).
-/
def needsQuotes (d : Char) (field : String) : Bool :=
  field.toList.any (fun c => c = d || c = '"' || c = '\n' || c = '\r')

/-- Double every quote inside a field (the csv crate default escape). -/
def escapeQuotes (field : String) : String :=
  String.join (field.toList.map (fun c => if c = '"' then "\"\"" else String.singleton c))

/--
One field as the csv crate writes it.  Under `Necessary` a field is
wrapped in quotes, with internal quotes doubled, when it contains a
special character, and also when it is the empty sole field of its
record; under `Never` the field is written raw.
-/
def writeField (d : Char) (style : QuoteStyle) (soleField : Bool) (field : String) : String :=
  match style with
  | QuoteStyle.never => field
  | QuoteStyle.necessary =>
      if needsQuotes d field || (field.isEmpty && soleField) then
        "\"" ++ escapeQuotes field ++ "\""
      else field

/--
One record as `csv_writer.write_record` emits it: the fields joined by
the delimiter, closed by the default record terminator, a line feed.
-/
def writeRecord (d : Char) (style : QuoteStyle) (fields : List String) : String :=
  String.intercalate (String.singleton d)
      (fields.map (writeField d style (fields.length == 1))) ++ "\n"

/-- The shared progress record (src/main.rs, lines 20-28).  The `f32`
fraction is modelled as an exact rational, which the worker only ever
assigns constant milestone values to. -/
structure ConversionProgress where
  status : String
  progress : Rat
  is_converting : Bool

/-- One cell of a data row (src/main.rs lines 217-221 and 249-253): the
JSON text of the value at the given key, or the empty string when the
key is absent from the object (`unwrap_or_default`). -/
def rowCells (headers : List String) (obj : List (String × Json)) : List String :=
  headers.map (fun key =>
    match mapGet obj key with
    | some v => v.toString
    | none => "")

/--
The row loop over the elements of a top-level array (src/main.rs lines
215-232).  For each element that is an Object one record of cells is
written; other elements are skipped.  The first component collects every
written record; the second collects the preview rows, which take only the
elements whose index in the array is below the preview cap.
-/
def arrayLoop (headers : List String) (maxPreviewRows : Nat) :
    List Json → Nat → List (List String) × List (List String)
  | [], _ => ([], [])
  | item :: rest, i =>
    let r := arrayLoop headers maxPreviewRows rest (i + 1)
    match item with
    | Json.obj o =>
        let values := rowCells headers o
        (values :: r.1, if i < maxPreviewRows then values :: r.2 else r.2)
    | _ => r

/--
What the worker thread leaves behind when it returns normally: the final
contents of the progress record, the CSV text recovered from the writer
buffer by `String::from_utf8(csv_writer.into_inner())`, the sequence of
records that was written to the csv writer (which determines that text),
and the local `preview_data` vector.  The source drops the last three on
the floor when the closure ends.
-/
structure ThreadResult where
  finalProgress : ConversionProgress
  csv : String
  records : List (List String)
  preview_data : List (List String)

/-- The successful tail of the worker (src/main.rs lines 265-276): set
the 0.9 milestone, recover the buffer as UTF-8 text (which cannot fail
for the byte sequences the writer produces here), and report success. -/
def finishSuccess (d : Char) (style : QuoteStyle)
    (records preview : List (List String)) : ThreadResult :=
  ⟨⟨"Conversion completed successfully", 1, false⟩,
    String.join (records.map (writeRecord d style)), records, preview⟩

/--
The worker closure spawned by `convert_to_csv` (src/main.rs lines
164-283), from the point at which `serde_json::from_str` has produced its
result.  `none` models the panic of the unguarded
`settings.delimiter.as_bytes()[0]` indexing when the delimiter string is
empty; every other path returns the final progress record together with
the produced CSV text and preview rows.
-/
def conversionWorker (parseResult : Except String Json) (settings : Settings)
    (selected_columns : List String) : Option ThreadResult :=
  match parseResult with
  | Except.error e =>
      some ⟨⟨"JSON parsing error: " ++ e, 1/5, false⟩, "", [], []⟩
  | Except.ok json_value =>
    match delimiterByte settings.delimiter with
    | none => none
    | some d =>
      let style := styleOf settings
      match json_value with
      | Json.arr arr =>
        match arr.head? with
        | some (Json.obj o) =>
            let headers :=
              if selected_columns.isEmpty then o.map Prod.fst else selected_columns
            let headerRecords := if settings.include_headers then [headers] else []
            let lp := arrayLoop headers settings.max_preview_rows arr 0
            some (finishSuccess d style (headerRecords ++ lp.1) (headerRecords ++ lp.2))
        | _ =>
            some (finishSuccess d style [] [])
      | Json.obj o =>
          let headers :=
            if selected_columns.isEmpty then o.map Prod.fst else selected_columns
          let headerRecords := if settings.include_headers then [headers] else []
          let values := rowCells headers o
          some (finishSuccess d style (headerRecords ++ [values])
            (headerRecords ++ [values]))
      | _ =>
          some ⟨⟨"Unsupported JSON structure", 2/5, false⟩, "", [], []⟩

/-- The fields of `JsonToCsvApp` (src/main.rs lines 46-77) that the
conversion path reads or could write; the GUI-only fields are outside
the core. -/
structure JsonToCsvApp where
  status : String
  json_content : Option String
  csv_content : Option String
  preview_data : Option (List (List String))
  error_message : Option String
  progressState : ConversionProgress
  settings : Settings
  selected_columns : List String

/-- The `Default` impl of `JsonToCsvApp` (src/main.rs lines 79-105),
restricted to the modelled fields; note the settings here are explicit
and differ from the derived `Settings::default()`. -/
def JsonToCsvApp.default : JsonToCsvApp :=
  ⟨"Ready", none, none, none, none, ⟨"", 0, false⟩,
    ⟨false, ",", true, true, 100⟩, []⟩

/--
`JsonToCsvApp::convert_to_csv` (src/main.rs lines 145-284) together with
the completed run of the thread it spawns.  `parse` stands for
`serde_json::from_str`.  The first component is the application state
after the method and the thread have both finished: the thread closure
captures only the progress handle, the settings clone and the selected
columns, so the only field it can write is `progressState`.  The second
component is `none` when no thread was spawned, and otherwise the thread
outcome (itself `none` on the delimiter panic), returned here only to
show what the source discards.
-/
def convert_to_csv (app : JsonToCsvApp) (parse : String → Except String Json) :
    JsonToCsvApp × Option (Option ThreadResult) :=
  match app.json_content with
  | none =>
      ({ app with error_message := some "No JSON content loaded" }, none)
  | some content =>
    let appStarted :=
      { app with progressState := ⟨"Starting conversion...", 0, true⟩ }
    match conversionWorker (parse content) app.settings app.selected_columns with
    | none => (appStarted, some none)
    | some res =>
        ({ appStarted with progressState := res.finalProgress }, some (some res))

/-- Status, converting flag and written records of a thread outcome. -/
def resultSummary (r : ThreadResult) : String × Bool × List (List String) :=
  (r.finalProgress.status, r.finalProgress.is_converting, r.records)

/-- CSV text and written records of a thread outcome. -/
def fullOutput (r : ThreadResult) : String × List (List String) :=
  (r.csv, r.records)

/-- The parsed value of the spec Example 1 input text
`[{"a":1,"b":"x"},{"a":2,"b":"y"}]`. -/
def exampleInput1 : Json :=
  Json.arr [Json.obj [("a", Json.num 1), ("b", Json.str "x")],
            Json.obj [("a", Json.num 2), ("b", Json.str "y")]]

/-!  Lemmas about the row loop, shared by several claims below. -/

/-- The full record sequence gains exactly one record per Object element. -/
theorem arrayLoop_fst_length (h : List String) (m : Nat) :
    ∀ (elems : List Json) (i : Nat),
      (arrayLoop h m elems i).1.length = elems.countP Json.isObj
  | [], _ => by simp [arrayLoop]
  | x :: rest, i => by
      cases x <;>
        simp [arrayLoop, List.countP_cons, Json.isObj,
          arrayLoop_fst_length h m rest (i + 1)]

/-- The full record sequence depends on neither the preview cap nor the
starting index. -/
theorem arrayLoop_fst_indep (h : List String) (m1 m2 : Nat) :
    ∀ (elems : List Json) (i1 i2 : Nat),
      (arrayLoop h m1 elems i1).1 = (arrayLoop h m2 elems i2).1
  | [], _, _ => by simp [arrayLoop]
  | x :: rest, i1, i2 => by
      cases x <;>
        simp [arrayLoop, arrayLoop_fst_indep h m1 m2 rest (i1 + 1) (i2 + 1)]

/-- The preview rows are exactly the full records of the elements whose
array index lies below the cap. -/
theorem arrayLoop_preview_take (h : List String) (m : Nat) :
    ∀ (elems : List Json) (i : Nat),
      (arrayLoop h m elems i).2 = (arrayLoop h m (elems.take (m - i)) i).1
  | [], i => by simp [arrayLoop]
  | x :: rest, i => by
      by_cases hi : i < m
      · have hmi : m - i = (m - (i + 1)) + 1 := by omega
        rw [hmi, List.take_succ_cons]
        cases x <;>
          simp [arrayLoop, hi, arrayLoop_preview_take h m rest (i + 1)]
      · have hmi : m - i = 0 := by omega
        have hmi1 : m - (i + 1) = 0 := by omega
        have hprev := arrayLoop_preview_take h m rest (i + 1)
        rw [hmi1] at hprev
        rw [hmi]
        cases x <;> simp [arrayLoop, hi, hprev]

/--
C1: for every top-level JSON Array input with no explicit column
selection whose first element is an Object, the header record equals the
first element keys in original order, and the number of produced data
rows equals the number of array elements that are themselves Objects,
the non-Object elements being skipped silently.
-/
theorem c1_header_and_row_count (settings : Settings) (o : List (String × Json))
    (rest : List Json) (d : Char)
    (hdelim : delimiterByte settings.delimiter = some d) :
    ∃ res : ThreadResult,
      conversionWorker (Except.ok (Json.arr (Json.obj o :: rest))) settings [] =
          some res ∧
      (settings.include_headers = true →
        res.records.head? = some (o.map Prod.fst)) ∧
      res.records.length =
        (if settings.include_headers then 1 else 0) +
          (Json.obj o :: rest).countP Json.isObj := by
  refine ⟨finishSuccess d (styleOf settings)
      ((if settings.include_headers then [o.map Prod.fst] else []) ++
        (arrayLoop (o.map Prod.fst) settings.max_preview_rows
          (Json.obj o :: rest) 0).1)
      ((if settings.include_headers then [o.map Prod.fst] else []) ++
        (arrayLoop (o.map Prod.fst) settings.max_preview_rows
          (Json.obj o :: rest) 0).2), ?_, ?_, ?_⟩
  · simp [conversionWorker, hdelim]
  · intro hih
    simp [finishSuccess, hih]
  · cases hih : settings.include_headers <;>
      simp [finishSuccess, hih, arrayLoop_fst_length, Nat.add_comm]

/--
Witness for C1 at the input Array whose elements are the Object with the
single key a and a non-Object number: one header record plus one data
record, header equal to the key list of the first element.
-/
theorem c1_witness :
    ∃ res : ThreadResult,
      conversionWorker
          (Except.ok (Json.arr (Json.obj [("a", Json.num 1)] :: [Json.num 2])))
          JsonToCsvApp.default.settings [] = some res ∧
      (JsonToCsvApp.default.settings.include_headers = true →
        res.records.head? = some ([("a", Json.num 1)].map Prod.fst)) ∧
      res.records.length =
        (if JsonToCsvApp.default.settings.include_headers then 1 else 0) +
          (Json.obj [("a", Json.num 1)] :: [Json.num 2]).countP Json.isObj :=
  c1_header_and_row_count JsonToCsvApp.default.settings
    [("a", Json.num 1)] [Json.num 2] ',' (by decide)

/--
C2: a produced cell is the canonical JSON text of the value stored under
the corresponding header key, and the JSON text of a string value keeps
its surrounding quote characters (nested arrays and objects likewise
render as their JSON text through the same `Json.toString`).
-/
theorem c2_cell_is_json_text (headers : List String) (o : List (String × Json))
    (i : Nat) (k : String) (v : Json)
    (hk : headers[i]? = some k) (hv : mapGet o k = some v) :
    (rowCells headers o)[i]? = some (Json.toString v) ∧
    (∀ s : String,
      Json.toString (Json.str s) = "\"" ++ escapeJsonString s ++ "\"") := by
  refine ⟨?_, fun s => rfl⟩
  simp [rowCells, hk, hv]

/--
Witness for C2: the cell for key a over the object mapping a to the JSON
string x is the three-character text of that string literal, quotes kept.
-/
theorem c2_witness :
    (rowCells ["a"] [("a", Json.str "x")])[0]? =
        some (Json.toString (Json.str "x")) ∧
    (∀ s : String,
      Json.toString (Json.str s) = "\"" ++ escapeJsonString s ++ "\"") :=
  c2_cell_is_json_text ["a"] [("a", Json.str "x")] 0 "a" (Json.str "x")
    rfl rfl

/--
C4: for every header column whose key is absent from the source object
the produced cell is the empty string, and every header column yields a
cell, so a missing key is never an error.
-/
theorem c4_missing_key_empty_cell (headers : List String)
    (o : List (String × Json)) (i : Nat) (k : String)
    (hk : headers[i]? = some k) (hv : mapGet o k = none) :
    (rowCells headers o)[i]? = some "" ∧
    (rowCells headers o).length = headers.length := by
  refine ⟨?_, by simp [rowCells]⟩
  simp [rowCells, hk, hv]

/--
Witness for C4: the cell for the header key b over an object that only
has the key a is the empty string.
-/
theorem c4_witness :
    (rowCells ["b"] [("a", Json.num 1)])[0]? = some "" ∧
    (rowCells ["b"] [("a", Json.num 1)]).length = ["b"].length :=
  c4_missing_key_empty_cell ["b"] [("a", Json.num 1)] 0 "b"
    rfl rfl

/--
C5: under the Necessary quote style a field containing the configured
delimiter, a quote character, or a line break is wrapped in quotes with
the internal quotes doubled, and under the Never style no field is ever
wrapped, whatever it contains.
-/
theorem c5_quote_policy (d : Char) (field : String) (soleField : Bool)
    (hc : ∃ c ∈ field.toList, c = d ∨ c = '"' ∨ c = '\n' ∨ c = '\r') :
    writeField d QuoteStyle.necessary soleField field =
        "\"" ++ escapeQuotes field ++ "\"" ∧
    (∀ f : String, writeField d QuoteStyle.never soleField f = f) := by
  refine ⟨?_, fun f => rfl⟩
  have hnq : needsQuotes d field = true := by
    rcases hc with ⟨c, hmem, hcase⟩
    simp only [needsQuotes, List.any_eq_true]
    refine ⟨c, hmem, ?_⟩
    rcases hcase with h | h | h | h <;> simp [h]
  simp [writeField, hnq]

/--
Witness for C5: a field containing the comma delimiter is wrapped, and
the Never style leaves fields untouched.
-/
theorem c5_witness :
    writeField ',' QuoteStyle.necessary false "a,b" =
        "\"" ++ escapeQuotes "a,b" ++ "\"" ∧
    (∀ f : String, writeField ',' QuoteStyle.never false f = f) :=
  c5_quote_policy ',' "a,b" false ⟨',', by decide, Or.inl rfl⟩

/--
C3 counterexample: on the Example 1 input under the default
configuration the conversion does not produce the rows 1,x and 2,y that
the claim states: because a string cell keeps its JSON quotes, the CSV
writer wraps and doubles them.
-/
theorem c3_counterexample :
    (conversionWorker (Except.ok exampleInput1)
        JsonToCsvApp.default.settings []).map ThreadResult.csv ≠
      some "a,b\n1,x\n2,y\n" := by
  decide

/--
C3 amended: on the Example 1 input under the default configuration the
conversion produces the header a,b followed by the data rows
1,"""x""" and 2,"""y""": each string cell is the quoted JSON literal,
which the CSV writer then wraps in quotes with the internal quotes
doubled.
-/
theorem c3_amended :
    (conversionWorker (Except.ok exampleInput1)
        JsonToCsvApp.default.settings []).map ThreadResult.csv =
      some "a,b\n1,\"\"\"x\"\"\"\n2,\"\"\"y\"\"\"\n" := by
  decide

/--
C6 counterexample: on the empty top-level Array the worker produces the
empty output but completes with the success status and does not report
the unsupported-structure failure the claim requires.
-/
theorem c6_counterexample :
    (conversionWorker (Except.ok (Json.arr []))
        JsonToCsvApp.default.settings []).map resultSummary =
      some ("Conversion completed successfully", false, []) ∧
    ("Conversion completed successfully" : String) ≠
      "Unsupported JSON structure" := by
  exact ⟨by decide, by decide⟩

/--
C6 amended: for every top-level Array input that is empty or whose first
element is not an Object, the conversion produces no records, no preview
rows and the empty CSV text, and the job completes as a success: the
final status is the success message with the converting flag cleared,
and no failure is reported.
-/
theorem c6_amended (settings : Settings) (elems : List Json) (d : Char)
    (hdelim : delimiterByte settings.delimiter = some d)
    (hshape : ∀ j, elems.head? = some j → j.isObj = false) :
    ∃ res : ThreadResult,
      conversionWorker (Except.ok (Json.arr elems)) settings [] = some res ∧
      res.records = [] ∧ res.preview_data = [] ∧ res.csv = "" ∧
      res.finalProgress.status = "Conversion completed successfully" ∧
      res.finalProgress.is_converting = false := by
  refine ⟨finishSuccess d (styleOf settings) [] [], ?_, rfl, rfl, rfl, rfl, rfl⟩
  cases elems with
  | nil => simp [conversionWorker, hdelim]
  | cons x rest =>
      have hx := hshape x rfl
      cases x <;> simp_all [conversionWorker, hdelim, Json.isObj]

/--
Witness for C6 amended: the Array holding the single number 42 converts
to empty output with the success status.
-/
theorem c6_amended_witness :
    ∃ res : ThreadResult,
      conversionWorker (Except.ok (Json.arr [Json.num 42]))
          JsonToCsvApp.default.settings [] = some res ∧
      res.records = [] ∧ res.preview_data = [] ∧ res.csv = "" ∧
      res.finalProgress.status = "Conversion completed successfully" ∧
      res.finalProgress.is_converting = false :=
  c6_amended JsonToCsvApp.default.settings [Json.num 42] ','
    (by decide) (by intro j hj; cases hj; rfl)

/--
C7: on every failure the worker halts at once with the error text in the
status field and the converting flag cleared, producing no records and
no CSV text: a parse error yields the parsing-error message, and a
top-level value that is neither Array nor Object yields the
unsupported-structure message.
-/
theorem c7_failure_halts (settings : Settings) (selected : List String)
    (e : String) (v : Json) (d : Char)
    (hdelim : delimiterByte settings.delimiter = some d)
    (hv : v.isScalar = true) :
    conversionWorker (Except.error e) settings selected =
      some ⟨⟨"JSON parsing error: " ++ e, 1/5, false⟩, "", [], []⟩ ∧
    conversionWorker (Except.ok v) settings selected =
      some ⟨⟨"Unsupported JSON structure", 2/5, false⟩, "", [], []⟩ := by
  refine ⟨rfl, ?_⟩
  cases v <;> simp_all [conversionWorker, hdelim, Json.isScalar]

/--
Witness for C7: the parse error message x and the bare scalar 42 both
end the job with the corresponding status, cleared flag and no output.
-/
theorem c7_witness :
    conversionWorker (Except.error "x") JsonToCsvApp.default.settings [] =
      some ⟨⟨"JSON parsing error: " ++ "x", 1/5, false⟩, "", [], []⟩ ∧
    conversionWorker (Except.ok (Json.num 42)) JsonToCsvApp.default.settings [] =
      some ⟨⟨"Unsupported JSON structure", 2/5, false⟩, "", [], []⟩ :=
  c7_failure_halts JsonToCsvApp.default.settings [] "x" (Json.num 42) ','
    (by decide) rfl

/-- The CSV text and the record sequence written to the csv writer do
not depend on the preview cap. -/
theorem worker_output_ignores_cap (pr : Except String Json) (s : Settings)
    (sel : List String) (m1 m2 : Nat) :
    (conversionWorker pr (withMaxPreview s m1) sel).map fullOutput =
      (conversionWorker pr (withMaxPreview s m2) sel).map fullOutput := by
  have hcap : ∀ (h : List String) (elems : List Json) (i : Nat),
      (arrayLoop h m1 elems i).1 = (arrayLoop h m2 elems i).1 :=
    fun h elems i => arrayLoop_fst_indep h m1 m2 elems i i
  cases pr with
  | error e => rfl
  | ok v =>
    cases hd : delimiterByte s.delimiter with
    | none => simp [conversionWorker, withMaxPreview, hd]
    | some d =>
      cases v with
      | arr elems =>
        cases elems with
        | nil => simp [conversionWorker, withMaxPreview, hd, styleOf, fullOutput, finishSuccess]
        | cons x rest =>
          cases x with
          | obj o =>
              simp [conversionWorker, withMaxPreview, hd, styleOf, fullOutput,
                finishSuccess, hcap]
          | null => simp [conversionWorker, withMaxPreview, hd, styleOf, fullOutput, finishSuccess]
          | bool b => simp [conversionWorker, withMaxPreview, hd, styleOf, fullOutput, finishSuccess]
          | num n => simp [conversionWorker, withMaxPreview, hd, styleOf, fullOutput, finishSuccess]
          | str t => simp [conversionWorker, withMaxPreview, hd, styleOf, fullOutput, finishSuccess]
          | arr inner => simp [conversionWorker, withMaxPreview, hd, styleOf, fullOutput, finishSuccess]
      | obj o => simp [conversionWorker, withMaxPreview, hd, styleOf, fullOutput, finishSuccess]
      | null => simp [conversionWorker, withMaxPreview, hd, styleOf, fullOutput, finishSuccess]
      | bool b => simp [conversionWorker, withMaxPreview, hd, styleOf, fullOutput, finishSuccess]
      | num n => simp [conversionWorker, withMaxPreview, hd, styleOf, fullOutput, finishSuccess]
      | str t => simp [conversionWorker, withMaxPreview, hd, styleOf, fullOutput, finishSuccess]

/--
C8: the preview cap bounds only the preview subset and never the full
output: two jobs differing only in `max_preview_rows` produce the same
CSV text and the same record sequence, the full row sequence of the
array loop never depends on the cap, and the preview rows are exactly
the full rows of the array elements with index below the cap, so rows
beyond the cap stay in the full sequence and are excluded from the
preview.
-/
theorem c8_cap_bounds_preview_only (pr : Except String Json) (s : Settings)
    (sel : List String) (m1 m2 : Nat) :
    ((conversionWorker pr (withMaxPreview s m1) sel).map fullOutput =
      (conversionWorker pr (withMaxPreview s m2) sel).map fullOutput) ∧
    (∀ (h : List String) (elems : List Json) (i : Nat),
      (arrayLoop h m1 elems i).1 = (arrayLoop h m2 elems i).1) ∧
    (∀ (h : List String) (elems : List Json),
      (arrayLoop h m1 elems 0).2 = (arrayLoop h m1 (elems.take m1) 0).1) :=
  ⟨worker_output_ignores_cap pr s sel m1 m2,
   fun h elems i => arrayLoop_fst_indep h m1 m2 elems i i,
   fun h elems => by simpa using arrayLoop_preview_take h m1 elems 0⟩

/--
C9: the conversion worker never stores its result back into the
application state: after `convert_to_csv` and the thread it spawns have
finished, whatever the input, the csv_content and preview_data fields of
the application are unchanged, the produced CSV text and preview rows
having been discarded with the thread.
-/
theorem c9_result_discarded (app : JsonToCsvApp)
    (parse : String → Except String Json) :
    (convert_to_csv app parse).1.csv_content = app.csv_content ∧
    (convert_to_csv app parse).1.preview_data = app.preview_data := by
  cases h : app.json_content with
  | none => simp [convert_to_csv, h]
  | some content =>
      cases hw : conversionWorker (parse content) app.settings app.selected_columns with
      | none => simp [convert_to_csv, h, hw]
      | some res => simp [convert_to_csv, h, hw]

/--
C10: the worker reads the first byte of the delimiter string without a
bounds guard: for a non-empty delimiter the access is in bounds, while
the derived `Settings::default()` delimiter is the empty string, on
which the unguarded `as_bytes()[0]` access is out of bounds whatever
JSON value was parsed.
-/
theorem c10_delimiter_unguarded (s : String) (v : Json) (hne : s ≠ "") :
    (delimiterByte s).isSome = true ∧
    Settings.default.delimiter = "" ∧
    conversionWorker (Except.ok v) Settings.default [] = none := by
  refine ⟨?_, rfl, rfl⟩
  obtain ⟨data⟩ := s
  cases data with
  | nil => exact absurd rfl hne
  | cons c cs => rfl

/--
Witness for C10: the comma delimiter is safely readable, while the
derived default settings lead the worker into the unguarded access on
any parsed value.
-/
theorem c10_witness :
    (delimiterByte ",").isSome = true ∧
    Settings.default.delimiter = "" ∧
    conversionWorker (Except.ok Json.null) Settings.default [] = none :=
  c10_delimiter_unguarded "," Json.null (by decide)
